import Mathlib

/-!
Verification of the wikicrunch corpus extractor.

The development shallowly embeds the two core algorithms of the program:

* `src/parsing.rs` — the recursive markup-to-text filter (`iterate_element`,
  `xhtml_to_plain`'s whitespace normalization);
* `src/main.rs` — the streaming dump-traversal state machine (`main`'s event
  loop), modelled as a step function over an explicit loop state, with the
  external rendering service (`talk_to_server`) and the plain-text conversion
  passed in as oracle functions.

Rust `String` operations that the kernel cannot evaluate are re-implemented
structurally on `String.data` (`str_starts_with`, `utf8_len`, `to_lowercase`,
`str_contains`), keeping the byte-level semantics of the Rust originals on the
ASCII inputs the program compares against.
-/

namespace Wikicrunch

/-! ### String primitives (structural re-implementations of Rust `str` methods) -/

/-- `starts_with_chars hay pre`: does `hay` begin with `pre`?
Char-list core of Rust `str::starts_with`. -/
def starts_with_chars : List Char → List Char → Bool
  | _, [] => true
  | [], _ :: _ => false
  | h :: ht, p :: pt => h == p && starts_with_chars ht pt

/-- Rust `str::starts_with` (for ASCII patterns byte-wise and char-wise agree). -/
def str_starts_with (s pre : String) : Bool := starts_with_chars s.data pre.data

/-- `contains_chars hay pat`: does `pat` occur contiguously inside `hay`?
Char-list core of Rust `str::contains`. -/
def contains_chars : List Char → List Char → Bool
  | [], pat => starts_with_chars [] pat
  | h :: t, pat => starts_with_chars (h :: t) pat || contains_chars t pat

/-- Rust `str::contains` with a string pattern (pattern here is always ASCII,
so byte-level occurrence coincides with char-level occurrence). -/
def str_contains (s pat : String) : Bool := contains_chars s.data pat.data

/-- UTF-8 byte length of a char list; Rust `str::len`. -/
def utf8_len : List Char → Nat
  | [] => 0
  | c :: rest => c.utf8Size + utf8_len rest

/-- Rust `str::to_lowercase`, restricted to the ASCII mapping (the tag names the
program compares against are all ASCII, where the two coincide). -/
def to_lowercase (s : String) : String := ⟨s.data.map Char.toLower⟩

/-! ### `src/parsing.rs`: the markup filter -/

/-- A node of the parsed rendered document: `sxd_document::dom::ChildOfElement`
together with the element shape (name, attributes, children). -/
inductive Node where
  | element (name : String) (attrs : List (String × String)) (children : List Node)
  | text (s : String)
  | comment (s : String)
  | pi (s : String)

/-- `Element::attribute_value`: the value of the named attribute, if present. -/
def attribute_value (attrs : List (String × String)) (key : String) : Option String :=
  (attrs.find? (fun p => p.1 == key)).map (fun p => p.2)

/-- The heading test of `iterate_element`
(`elem_name.len() == 2 && elem_name.starts_with("h") &&
elem_name.chars().nth(1).unwrap().is_ascii_digit()`).
Note it inspects the *raw* element name, before any lowercasing. -/
def isHeadingName (name : String) : Bool :=
  utf8_len name.data == 2 && str_starts_with name "h" && (name.data.getD 1 ' ').isDigit

mutual

/-- The contribution of one child node to the text collected by
`iterate_element`'s `for child in &element.children()` loop. -/
def child_contrib : Node → String
  | .text t => t
  | .comment _ => ""
  | .pi _ => ""
  | .element name attrs kids =>
    if isHeadingName name then
      -- <h1> etc. don't tend to contain full sentences => skip
      ""
    else
      let lower := to_lowercase name
      if lower = "ul" ∨ lower = "ol" ∨ lower = "dl" ∨ lower = "li" then
        -- lists tend to contain fragments instead of sentences => skip
        ""
      else if lower = "math" ∨ lower = "chem" ∨ lower = "timeline" ∨ lower = "syntaxhighlight"
              ∨ lower = "hiero" ∨ lower = "inputbox" ∨ lower = "score" ∨ lower = "graph"
              ∨ lower = "categorytree" then
        -- anything but the natural language we're trying to process => skip
        ""
      else if lower = "sup" ∨ lower = "sub" then
        -- mostly references => skip
        ""
      else if lower = "a" then
        -- ensure it is not a category link
        let descend := match attribute_value attrs "href" with
          | some href => !(str_starts_with href "./Kategorie:")
          | none => true
        if descend then iterate_children kids else ""
      else if lower = "table" then
        -- tables can contain both sentences and fragmentary text => skip
        ""
      else if lower = "span" then
        -- ensure it's not an image
        let descend := match attribute_value attrs "typeof" with
          | some type_of => !(str_contains type_of "mw:Image")
          | none => true
        if descend then iterate_children kids else ""
      else
        iterate_children kids
  termination_by structural n => n

/-- The loop of `iterate_element` over an element's child list. -/
def iterate_children : List Node → String
  | [] => ""
  | child :: rest => child_contrib child ++ iterate_children rest
  termination_by structural l => l

end

/-- `iterate_element`: recursively collect the prose text below an element. -/
def iterate_element : Node → String
  | .element _ _ kids => iterate_children kids
  | _ => ""

/-! #### Whitespace normalization of `xhtml_to_plain`
(`WHITESPACE_RE.replace_all(&plaintext, " ").trim()` with `WHITESPACE_RE = \s+`). -/

/-- Unicode `White_Space` (the character class matched by the regex crate's `\s`
and trimmed by Rust `str::trim`). -/
def isWs (c : Char) : Bool :=
  (9 ≤ c.toNat && c.toNat ≤ 13) || c.toNat == 32 || c.toNat == 0x85 || c.toNat == 0xA0 ||
  c.toNat == 0x1680 || (0x2000 ≤ c.toNat && c.toNat ≤ 0x200A) ||
  c.toNat == 0x2028 || c.toNat == 0x2029 || c.toNat == 0x202F || c.toNat == 0x205F ||
  c.toNat == 0x3000

/-- `WHITESPACE_RE.replace_all(_, " ")`: every maximal run of whitespace becomes
a single space.  `prevWs` records whether the previous character belonged to a
whitespace run that has already emitted its space. -/
def collapse_ws : Bool → List Char → List Char
  | _, [] => []
  | prevWs, c :: rest =>
    if isWs c then
      if prevWs then collapse_ws true rest else ' ' :: collapse_ws true rest
    else
      c :: collapse_ws false rest

/-- Rust `str::trim`: remove leading and trailing whitespace. -/
def trim_chars (l : List Char) : List Char :=
  (((l.dropWhile fun c => isWs c).reverse.dropWhile fun c => isWs c)).reverse

/-- The final whitespace normalization applied by `xhtml_to_plain`:
collapse every whitespace run to one space, then trim both ends. -/
def whitespace_normalize (s : String) : String :=
  ⟨trim_chars (collapse_ws false s.data)⟩

/-- `xhtml_to_plain`, from the parsed `<body>` element on: collect prose text
recursively, then normalize whitespace. -/
def xhtml_to_plain_body (body : Node) : String :=
  whitespace_normalize (iterate_element body)

end Wikicrunch

namespace Wikicrunch

/-! ### `src/main.rs`: the dump-traversal event loop -/

/-- The command-line options that influence the traversal
(`cli::Opts`, minus the pure I/O plumbing fields). -/
structure Opts where
  title : Option String
  and_after : Bool
  xhtml_output : Bool
  no_plain_output : Bool
deriving DecidableEq

/-- The dump events the loop distinguishes (`xml::reader::XmlEvent`);
`other` covers every variant the loop ignores. -/
inductive XmlEvent where
  | startElement (local_name : String)
  | endElement
  | characters (chars : String)
  | cdata (s : String)
  | other
deriving DecidableEq

/-- The mutable state of `main`'s event loop.  `output` is the sequence of
lines written to the output sink so far; `selections` is a ghost counter of
how many page bodies have been selected for rendering (it tracks exactly the
executions of the `if parse_it { ... }` body and affects nothing else). -/
structure LoopState where
  element_stack : List String
  page_count : Nat
  text : String
  store_text : Bool
  current_title : Option String
  keep_going : Bool
  output : List String
  selections : Nat
deriving DecidableEq

/-- `["mediawiki", "page"]` -/
def page_level : List String := ["mediawiki", "page"]
/-- `["mediawiki", "page", "title"]` -/
def title_level : List String := ["mediawiki", "page", "title"]
/-- `["mediawiki", "page", "revision", "text"]` -/
def text_level : List String := ["mediawiki", "page", "revision", "text"]

/-- The excluded-namespace test on the current title (the chain of
`ct.starts_with(...)` calls in `main`). -/
def excluded_title (ct : String) : Bool :=
  str_starts_with ct "Medium:" || str_starts_with ct "Spezial:"
  || str_starts_with ct "Diskussion:"
  || str_starts_with ct "Benutzer:" || str_starts_with ct "Benutzer Diskussion:"
  || str_starts_with ct "Datei:" || str_starts_with ct "Datei Diskussion:"
  || str_starts_with ct "Vorlage:" || str_starts_with ct "Vorlage Diskussion:"
  || str_starts_with ct "Kategorie:" || str_starts_with ct "Kategorie Diskussion:"

/-- The body-selection decision of `main` (the value `parse_it` holds when the
`if parse_it` is reached): namespace exclusion first, then — unless the
continue flag is set — the exact-title filter. -/
def parse_it (opts : Opts) (keep_going : Bool) (current_title : Option String) : Bool :=
  let p0 := match current_title with
    | some ct => !(excluded_title ct)
    | none => true
  if p0 && !keep_going then
    match opts.title with
    | some ot =>
      match current_title with
      | some ct => ot == ct
      | none => false
    | none => true
  else p0

/-- The title line `# <page-index> TITLE: <title-text>`
(`output_line!(out_file, "# {} TITLE: {}", page_count, text)`). -/
def titleLine (n : Nat) (t : String) : String :=
  "# " ++ toString n ++ " TITLE: " ++ t

/-- The title-line emission decision of `main` (the value `output_title`). -/
def output_title (opts : Opts) (keep_going : Bool) (current_title : Option String) : Bool :=
  match opts.title with
  | some t =>
    if keep_going then true
    else
      match current_title with
      | some ct => ct == t
      | none => false
  | none => true

/-- The result of one iteration of the event loop: continue with a new state,
leave the loop (`break`), or abort the process (`panic!` / failed assert). -/
inductive StepResult where
  | cont (s : LoopState)
  | stop (s : LoopState)
  | fatal
deriving DecidableEq

/-- One iteration of `main`'s `for event_res in parser` loop, for one event.
`render` is the oracle for `talk_to_server` (its `Ok` result) and `plain` the
oracle for `xhtml_to_plain`'s result on the rendered markup. -/
def step (opts : Opts) (render : String → String → String) (plain : String → String)
    (st : LoopState) (ev : XmlEvent) : StepResult :=
  match ev with
  | .startElement name =>
    let stack := st.element_stack ++ [name]
    if stack = page_level then
      .cont { st with element_stack := stack, page_count := st.page_count + 1,
                      current_title := none }
    else if stack = text_level ∨ stack = title_level then
      .cont { st with element_stack := stack, text := "", store_text := true }
    else
      .cont { st with element_stack := stack }
  | .endElement =>
    if st.store_text then
      if st.element_stack = text_level then
        if parse_it opts st.keep_going st.current_title then
          let page_title := st.current_title.getD "Unbekannte Seite"
          let xhtml := render page_title st.text
          let emitted :=
            if xhtml.length > 0 then
              (if opts.xhtml_output then [xhtml] else [])
              ++ (if !opts.no_plain_output then [plain xhtml] else [])
            else []
          let st' := { st with store_text := false, output := st.output ++ emitted,
                               selections := st.selections + 1 }
          if opts.and_after then
            .cont { st' with keep_going := true,
                             element_stack := st'.element_stack.dropLast }
          else if opts.title.isSome then
            -- `break`: the loop ends before `element_stack.pop()` runs
            .stop st'
          else
            .cont { st' with element_stack := st'.element_stack.dropLast }
        else
          .cont { st with store_text := false,
                          element_stack := st.element_stack.dropLast }
      else if st.element_stack = title_level then
        -- the `assert_eq!(element_stack, title_level)` succeeded
        let out :=
          if output_title opts st.keep_going st.current_title then
            st.output ++ [titleLine st.page_count st.text]
          else st.output
        .cont { st with store_text := false, current_title := some st.text,
                        output := out, element_stack := st.element_stack.dropLast }
      else
        -- `assert_eq!(element_stack, title_level)` fails: abort
        .fatal
    else
      .cont { st with element_stack := st.element_stack.dropLast }
  | .characters chars =>
    if st.store_text then .cont { st with text := st.text ++ chars }
    else .cont st
  | .cdata _ =>
    -- `panic!("CDATA!")`
    .fatal
  | .other => .cont st

/-- The outcome of running the loop over a list of events: the loop consumed
every event (`finished`), `break` left the loop with events unprocessed
(`stopped`), or the process aborted (`fatal`). -/
inductive RunResult where
  | finished (s : LoopState)
  | stopped (s : LoopState) (remaining : List XmlEvent)
  | fatal
deriving DecidableEq

/-- `main`'s event loop over a whole event stream. -/
def run (opts : Opts) (render : String → String → String) (plain : String → String) :
    LoopState → List XmlEvent → RunResult
  | st, [] => .finished st
  | st, ev :: rest =>
    match step opts render plain st ev with
    | .cont st' => run opts render plain st' rest
    | .stop st' => .stopped st' rest
    | .fatal => .fatal

/-- The loop state at the start of `main`'s scan. -/
def initState : LoopState :=
  { element_stack := [], page_count := 0, text := "", store_text := false,
    current_title := none, keep_going := false, output := [], selections := 0 }

/-- The loop state carried by a non-fatal step result. -/
def stateOf : StepResult → Option LoopState
  | .cont s => some s
  | .stop s => some s
  | .fatal => none

end Wikicrunch

namespace Wikicrunch

/-! ### Auxiliary predicates and concrete inputs used by the claims -/

/-- The tags of §4.3 that are discarded wholesale (lists, non-prose content,
superscript/subscript, tables), as lower-cased names. -/
def skip_tags : List String :=
  ["ul", "ol", "dl", "li",
   "math", "chem", "timeline", "syntaxhighlight", "hiero", "inputbox", "score",
   "graph", "categorytree",
   "sup", "sub", "table"]

/-- Every whitespace character in `l` is a plain space. -/
def ws_spaced (l : List Char) : Prop := ∀ c ∈ l, isWs c = true → c = ' '

/-- No two adjacent characters of `l` are both whitespace. -/
def no_adjacent_ws (l : List Char) : Prop :=
  l.Chain' (fun a b => isWs a = false ∨ isWs b = false)

/-- The head of `l` (if any) is not whitespace. -/
def head_not_ws (l : List Char) : Prop := ∀ c ∈ l.head?, isWs c = false

/-- A render oracle that always returns the empty document. -/
def render_empty : String → String → String := fun _ _ => ""

/-- A render oracle that returns a fixed non-empty document. -/
def render_x : String → String → String := fun _ _ => "X"

/-- A plain-text oracle (its value is irrelevant to the claims that use it). -/
def plain0 : String → String := fun _ => ""

/-- C1 options: title filter `Foo`, no continue, no markup output, plain
output suppressed. -/
def opts_C1 : Opts := ⟨some "Foo", false, false, true⟩

/-- C1 events: one page whose title is exactly the configured filter title. -/
def events_C1 : List XmlEvent :=
  [.startElement "mediawiki", .startElement "page", .startElement "title",
   .characters "Foo", .endElement]

/-- C2 counterexample document body: an `<H2>` element (upper-case name) with
contained text between two sibling text nodes. -/
def body_C2 : Node :=
  .element "body" [] [.text "A", .element "H2" [] [.text "B"], .text "C"]

/-- C5 counterexample options: title filter `Foo`, continue option not set. -/
def opts_C5 : Opts := ⟨some "Foo", false, false, true⟩

/-- C5 counterexample events: a complete dump with a single page titled `Bar`,
which does not match the filter. -/
def events_C5 : List XmlEvent :=
  [.startElement "mediawiki", .startElement "page", .startElement "title",
   .characters "Bar", .endElement, .startElement "revision", .startElement "text",
   .characters "w", .endElement, .endElement, .endElement, .endElement]

/-- C6 counterexample options: no title filter, `and_after` set, both output
kinds enabled. -/
def opts_C6 : Opts := ⟨none, true, true, false⟩

/-- C6 counterexample events: one page body, no title element. -/
def events_C6 : List XmlEvent :=
  [.startElement "mediawiki", .startElement "page", .startElement "revision",
   .startElement "text", .characters "w", .endElement]

/-- C9 counterexample options: title filter `Bar`, continue option not set. -/
def opts_C9 : Opts := ⟨some "Bar", false, false, true⟩

/-- C9 counterexample events: a page matching the filter, followed by a CDATA
event that the scan never reaches because of single-match termination. -/
def events_C9 : List XmlEvent :=
  [.startElement "mediawiki", .startElement "page", .startElement "title",
   .characters "Bar", .endElement, .startElement "revision", .startElement "text",
   .characters "w", .endElement, .cdata "x"]

/-- Is an event a CDATA event? -/
def isCData : XmlEvent → Bool
  | .cdata _ => true
  | _ => false

end Wikicrunch

namespace Wikicrunch

/-! ### Helper lemmas -/

theorem String.mk_injective {a b : List Char} (h : (⟨a⟩ : String) = ⟨b⟩) : a = b := by
  cases h; rfl

theorem str_ext {a b : String} (h : a.data = b.data) : a = b := by
  cases a; cases b; exact congrArg String.mk h

theorem str_data_append (a b : String) : (a ++ b).data = a.data ++ b.data := by
  cases a; cases b; rfl

theorem str_nil_append (s : String) : "" ++ s = s := by
  cases s; rfl

theorem str_append_assoc (a b c : String) : a ++ b ++ c = a ++ (b ++ c) := by
  apply str_ext
  simp [str_data_append]

theorem iterate_children_nil : iterate_children [] = "" := rfl

theorem iterate_children_cons (x : Node) (rest : List Node) :
    iterate_children (x :: rest) = child_contrib x ++ iterate_children rest := rfl

theorem iterate_children_append (l₁ l₂ : List Node) :
    iterate_children (l₁ ++ l₂) = iterate_children l₁ ++ iterate_children l₂ := by
  induction l₁ with
  | nil => simp [iterate_children_nil, str_nil_append]
  | cons x rest ih =>
    simp only [List.cons_append, iterate_children_cons, ih, str_append_assoc]

/-- An element whose raw name passes the heading test, or whose lower-cased
name is one of the wholesale-discarded tags, contributes nothing. -/
theorem child_contrib_skip (name : String) (attrs : List (String × String))
    (kids : List Node)
    (h : isHeadingName name = true ∨ to_lowercase name ∈ skip_tags) :
    child_contrib (.element name attrs kids) = "" := by
  rcases h with h | h
  · simp [child_contrib, h]
  · simp only [skip_tags, List.mem_cons, List.not_mem_nil, or_false] at h
    rcases h with h | h | h | h | h | h | h | h | h | h | h | h | h | h | h | h <;>
      simp [child_contrib, h]

theorem child_contrib_a (attrs : List (String × String)) (kids : List Node) :
    child_contrib (.element "a" attrs kids) =
      (if (match attribute_value attrs "href" with
           | some href => !(str_starts_with href "./Kategorie:")
           | none => true) then iterate_children kids else "") := by
  simp [child_contrib, show isHeadingName "a" = false from by decide,
        show to_lowercase "a" = "a" from by decide]

theorem child_contrib_span (attrs : List (String × String)) (kids : List Node) :
    child_contrib (.element "span" attrs kids) =
      (if (match attribute_value attrs "typeof" with
           | some type_of => !(str_contains type_of "mw:Image")
           | none => true) then iterate_children kids else "") := by
  simp [child_contrib, show isHeadingName "span" = false from by decide,
        show to_lowercase "span" = "span" from by decide]

end Wikicrunch

namespace Wikicrunch

/-! ### Claims C1, C2, C8, C3, C10 -/

/-- C1 (code evaluation): with the title filter `Foo` configured and the
continue flag never set, the dump page titled exactly `Foo` produces *no*
title line at the moment its title element is closed — the code compares the
filter against the previously recorded `current_title` (still `None` for the
page's first title element), not against the just-parsed title text, so the
line `# 1 TITLE: Foo` the claim requires is never emitted. -/
theorem claim_C1_code_eval :
    run opts_C1 render_empty plain0 initState events_C1 =
      .finished { element_stack := ["mediawiki", "page"], page_count := 1,
                  text := "Foo", store_text := false, current_title := some "Foo",
                  keep_going := false, output := [], selections := 0 } ∧
    titleLine 1 "Foo" = "# 1 TITLE: Foo" := by
  decide

/-- C2 (counterexample): the element name `H2` lower-cases to `h2`, which is
`h` followed by exactly one digit, yet the filter *does* descend into it and
emits its contained text `B`: the heading test runs on the raw name, before
lowercasing. -/
theorem claim_C2_counterexample :
    isHeadingName (to_lowercase "H2") = true ∧
    iterate_element body_C2 = "ABC" ∧
    ("ABC" : String) ≠ "A" ++ "C" := by
  decide

/-- C2 (amended): for every element whose *raw* tag name is `h` followed by
exactly one digit, or whose lower-cased tag name is one of the list tags, the
non-prose tags, `sup`, `sub`, or `table`, the filter emits none of that
element's contained text and does not descend into it, while the text of its
sibling nodes is appended unaffected. -/
theorem claim_C2_amended (name : String) (attrs : List (String × String))
    (kids pre post : List Node)
    (h : isHeadingName name = true ∨ to_lowercase name ∈ skip_tags) :
    iterate_children (pre ++ Node.element name attrs kids :: post) =
      iterate_children pre ++ iterate_children post := by
  rw [iterate_children_append, iterate_children_cons, child_contrib_skip name attrs kids h,
      str_nil_append]

/-- Witness for the amended C2 at a concrete heading element with siblings. -/
theorem claim_C2_witness :
    (isHeadingName "h2" = true ∨ to_lowercase "h2" ∈ skip_tags) ∧
    iterate_children
        ([Node.text "A"] ++ Node.element "h2" [] [Node.text "B"] :: [Node.text "C"]) =
      iterate_children [Node.text "A"] ++ iterate_children [Node.text "C"] :=
  ⟨Or.inl (by decide),
   claim_C2_amended "h2" [] [Node.text "B"] [Node.text "A"] [Node.text "C"]
     (Or.inl (by decide))⟩

/-- C8: an anchor element is descended into and keeps its contained text
unless its `href` attribute starts with `./Kategorie:`, in which case it is
discarded entirely; a `span` element is descended into unless its `typeof`
attribute contains `mw:Image`.  Sibling text is appended unaffected in every
case. -/
theorem claim_C8 (attrs : List (String × String)) (kids pre post : List Node) :
    (iterate_children (pre ++ Node.element "a" attrs kids :: post) =
      iterate_children pre ++
        (if (match attribute_value attrs "href" with
             | some href => !(str_starts_with href "./Kategorie:")
             | none => true) then iterate_children kids else "")
        ++ iterate_children post) ∧
    (iterate_children (pre ++ Node.element "span" attrs kids :: post) =
      iterate_children pre ++
        (if (match attribute_value attrs "typeof" with
             | some type_of => !(str_contains type_of "mw:Image")
             | none => true) then iterate_children kids else "")
        ++ iterate_children post) := by
  constructor
  · rw [iterate_children_append, iterate_children_cons, child_contrib_a attrs kids,
        str_append_assoc]
  · rw [iterate_children_append, iterate_children_cons, child_contrib_span attrs kids,
        str_append_assoc]

/-- C3: a page whose recorded current title starts with one of the excluded
namespace prefixes is never selected for rendering — the selection decision is
`false` for every option set (even a filter equal to the title) and for both
values of the continue flag, and the corresponding end-of-text step only pops
the element stack, emitting nothing and selecting nothing. -/
theorem claim_C3 (opts : Opts) (render : String → String → String)
    (plain : String → String) (st : LoopState) (ct : String)
    (hex : excluded_title ct = true) :
    (∀ kg, parse_it opts kg (some ct) = false) ∧
    (st.store_text = true → st.element_stack = text_level →
      st.current_title = some ct →
      step opts render plain st .endElement =
        .cont { st with store_text := false,
                        element_stack := st.element_stack.dropLast }) := by
  have hp : ∀ kg, parse_it opts kg (some ct) = false := by
    intro kg
    simp [parse_it, hex]
  refine ⟨hp, fun hstore hstack hct => ?_⟩
  simp [step, hstore, hstack, hct, hp]

/-- Witness for C3: the category page `Kategorie:X` is not selected even
though the filter title equals it exactly. -/
theorem claim_C3_witness :
    parse_it ⟨some "Kategorie:X", false, false, false⟩ false (some "Kategorie:X") = false :=
  (claim_C3 ⟨some "Kategorie:X", false, false, false⟩ render_empty plain0 initState
      "Kategorie:X" (by decide)).1 false

/-- C10: if a child element lives inside a tracked `title` or `revision/text`
element, then the end-element of that child arrives while text accumulation is
active with an element path that differs from both tracked paths, and the run
aborts (the `assert_eq!(element_stack, title_level)` fails). -/
theorem claim_C10 (opts : Opts) (render : String → String → String)
    (plain : String → String) (st : LoopState) (c : String) (rest : List XmlEvent)
    (hstore : st.store_text = true)
    (hpath : st.element_stack = title_level ∨ st.element_stack = text_level) :
    run opts render plain st (.startElement c :: .endElement :: rest) = .fatal := by
  rcases hpath with h | h <;>
    simp [run, step, h, hstore, page_level, title_level, text_level]

/-- Witness for C10: a child element inside `title` aborts the run. -/
theorem claim_C10_witness :
    run ⟨none, false, false, false⟩ render_empty plain0
      { element_stack := ["mediawiki", "page", "title"], page_count := 1, text := "",
        store_text := true, current_title := none, keep_going := false,
        output := [], selections := 0 }
      [.startElement "b", .endElement] = .fatal :=
  claim_C10 ⟨none, false, false, false⟩ render_empty plain0 _ "b" []
    rfl (Or.inl rfl)

end Wikicrunch

namespace Wikicrunch

/-! ### Step-analysis helper lemmas for the event loop -/

theorem step_cdata_fatal (opts : Opts) (render : String → String → String)
    (plain : String → String) (st : LoopState) (s : String) :
    step opts render plain st (.cdata s) = .fatal := rfl

/-- The continue flag is never cleared by a step. -/
theorem step_keep_going (opts : Opts) (render : String → String → String)
    (plain : String → String) (st : LoopState) (ev : XmlEvent) (st' : LoopState)
    (hkg : st.keep_going = true)
    (h : step opts render plain st ev = .cont st' ∨
         step opts render plain st ev = .stop st') :
    st'.keep_going = true := by
  rcases h with h | h <;>
    (cases ev <;> simp only [step] at h <;> repeat' split at h) <;>
    first
      | (injection h with h; subst h; first | rfl | exact hkg)
      | simp_all

/-- A `break` result always comes from a selected body: the selection counter
was just incremented. -/
theorem step_stop_selections (opts : Opts) (render : String → String → String)
    (plain : String → String) (st : LoopState) (ev : XmlEvent) (st' : LoopState)
    (h : step opts render plain st ev = .stop st') :
    st'.selections = st.selections + 1 := by
  cases ev <;> simp only [step] at h <;> repeat' split at h
  all_goals first
    | (injection h with h; subst h; rfl)
    | simp_all

/-- With a title filter configured and `and_after` not set, a step that
continues the loop never selects a body. -/
theorem step_cont_selections (opts : Opts) (render : String → String → String)
    (plain : String → String) (st : LoopState) (ev : XmlEvent) (st' : LoopState)
    (hna : opts.and_after = false) (hft : opts.title.isSome = true)
    (h : step opts render plain st ev = .cont st') :
    st'.selections = st.selections := by
  cases ev <;> simp only [step] at h <;> repeat' split at h
  all_goals first
    | (injection h with h; subst h; rfl)
    | simp_all

end Wikicrunch

namespace Wikicrunch

/-! ### Claims C4, C5, C6, C9 -/

/-- C4: the continue flag is never unset once set, and once it is set, every
subsequent page whose title does not start with an excluded namespace prefix
is selected for rendering (the selection decision is `true` and the
end-of-text step counts a selection), regardless of whether its title matches
the configured filter title. -/
theorem claim_C4 (opts : Opts) (render : String → String → String)
    (plain : String → String) :
    (∀ (st : LoopState) (ev : XmlEvent) (st' : LoopState), st.keep_going = true →
       (step opts render plain st ev = .cont st' ∨
        step opts render plain st ev = .stop st') →
       st'.keep_going = true) ∧
    (∀ (st : LoopState) (ct : String), st.keep_going = true → st.store_text = true →
       st.element_stack = text_level → st.current_title = some ct →
       excluded_title ct = false →
       parse_it opts st.keep_going (some ct) = true ∧
       ∃ st', (step opts render plain st .endElement = .cont st' ∨
               step opts render plain st .endElement = .stop st') ∧
              st'.selections = st.selections + 1) := by
  constructor
  · exact fun st ev st' => step_keep_going opts render plain st ev st'
  · intro st ct hkg hstore hstack hct hex
    have hp : parse_it opts st.keep_going (some ct) = true := by
      simp [parse_it, hex, hkg]
    refine ⟨hp, ?_⟩
    simp only [step, hstore, hstack, hct, hp, if_true, reduceIte]
    split
    · exact ⟨_, Or.inl rfl, rfl⟩
    · split
      · exact ⟨_, Or.inr rfl, rfl⟩
      · exact ⟨_, Or.inl rfl, rfl⟩

/-- Witness for C4: a step taken with the continue flag set leaves it set. -/
theorem claim_C4_witness :
    LoopState.keep_going
        { element_stack := ["x"], page_count := 0, text := "", store_text := false,
          current_title := none, keep_going := true, output := [], selections := 0 } =
      true :=
  (claim_C4 ⟨some "Bar", false, false, true⟩ render_empty plain0).1
    { element_stack := [], page_count := 0, text := "", store_text := false,
      current_title := none, keep_going := true, output := [], selections := 0 }
    (.startElement "x") _ rfl (Or.inl (by decide))

/-- C5 (counterexample): with the title filter `Foo` configured and `and_after`
not set, a complete dump whose only page is titled `Bar` finishes the scan
normally with *zero* pages selected — the claim's "exactly one page body is
selected" fails when no page matches the filter. -/
theorem claim_C5_counterexample :
    run opts_C5 render_empty plain0 initState events_C5 =
      .finished { element_stack := [], page_count := 1, text := "w",
                  store_text := false, current_title := some "Bar",
                  keep_going := false, output := [], selections := 0 } ∧
    opts_C5.title.isSome = true ∧ opts_C5.and_after = false := by
  decide

/-- C5 (amended): with a title filter configured and `and_after` not set, at
most one page body is selected: a run that consumes the whole stream selects
none, and a run that leaves the loop early selects exactly one — the one whose
revision-text end-element triggered the `break`, with all remaining events
unprocessed. -/
theorem claim_C5_amended (opts : Opts) (render : String → String → String)
    (plain : String → String)
    (hft : opts.title.isSome = true) (hna : opts.and_after = false) :
    ∀ (events : List XmlEvent) (st : LoopState),
      (∀ st', run opts render plain st events = .finished st' →
         st'.selections = st.selections) ∧
      (∀ st' rest, run opts render plain st events = .stopped st' rest →
         st'.selections = st.selections + 1) := by
  intro events
  induction events with
  | nil =>
    intro st
    refine ⟨fun st' h => ?_, fun st' rest h => ?_⟩
    · simp only [run] at h
      injection h with h
      subst h; rfl
    · simp only [run] at h
      exact absurd h (by simp)
  | cons ev rest ih =>
    intro st
    refine ⟨fun st' h => ?_, fun st' rem h => ?_⟩
    · simp only [run] at h
      rcases hs : step opts render plain st ev with s | s | _ <;> simp only [hs] at h
      · rw [(ih s).1 st' h,
            step_cont_selections opts render plain st ev s hna hft hs]
      · exact absurd h (by simp)
      · exact absurd h (by simp)
    · simp only [run] at h
      rcases hs : step opts render plain st ev with s | s | _ <;> simp only [hs] at h
      · rw [(ih s).2 st' rem h,
            step_cont_selections opts render plain st ev s hna hft hs]
      · injection h with h1 h2
        subst h1
        exact step_stop_selections opts render plain st ev s hs
      · exact absurd h (by simp)

/-- Witness for the amended C5: a matching page stops the scan with exactly
one selection and the rest of the stream unprocessed. -/
theorem claim_C5_witness :
    LoopState.selections
        { element_stack := ["mediawiki", "page", "revision", "text"], page_count := 1,
          text := "w", store_text := false, current_title := some "Foo",
          keep_going := false, output := [], selections := 1 } =
      initState.selections + 1 :=
  ((claim_C5_amended opts_C5 render_empty plain0 (by decide) (by decide))
      [.startElement "mediawiki", .startElement "page", .startElement "title",
       .characters "Foo", .endElement, .startElement "revision", .startElement "text",
       .characters "w", .endElement, .other]
      initState).2
    { element_stack := ["mediawiki", "page", "revision", "text"], page_count := 1,
      text := "w", store_text := false, current_title := some "Foo",
      keep_going := false, output := [], selections := 1 }
    [XmlEvent.other] (by decide)

end Wikicrunch

namespace Wikicrunch

theorem empty_string_length : ("" : String).length = 0 := rfl

/-- C6 (counterexample): a page is selected, the rendering oracle returns the
empty document, nothing is emitted — and yet the continue flag is flipped
(`and_after` is honoured even for an empty rendered result, because the flag
flip sits outside the `xhtml.len() > 0` guard). -/
theorem claim_C6_counterexample :
    run opts_C6 render_empty plain0 initState events_C6 =
      .finished { element_stack := ["mediawiki", "page", "revision"], page_count := 1,
                  text := "w", store_text := false, current_title := none,
                  keep_going := true, output := [], selections := 1 } ∧
    render_empty "Unbekannte Seite" "w" = "" ∧ opts_C6.and_after = true := by
  decide

/-- C6 (amended): for every selected page, the two emissions (raw markup line,
plain-text line) happen only when the rendered markup is non-empty — with an
empty rendered result nothing is emitted for the page — while the continue
flag flip (when `and_after` is set) and the scan termination (when a title
filter is configured and `and_after` is not set) happen for every selected
page regardless of whether the rendered markup is empty. -/
theorem claim_C6_amended (opts : Opts) (render : String → String → String)
    (plain : String → String) (st : LoopState)
    (hstore : st.store_text = true) (hstack : st.element_stack = text_level)
    (hsel : parse_it opts st.keep_going st.current_title = true) :
    (render (st.current_title.getD "Unbekannte Seite") st.text = "" →
       ∀ st', (step opts render plain st .endElement = .cont st' ∨
               step opts render plain st .endElement = .stop st') →
         st'.output = st.output) ∧
    (opts.and_after = true →
       ∀ st', (step opts render plain st .endElement = .cont st' ∨
               step opts render plain st .endElement = .stop st') →
         st'.keep_going = true) ∧
    (opts.and_after = false → opts.title.isSome = true →
       ∃ st', step opts render plain st .endElement = .stop st') := by
  refine ⟨?_, ?_, ?_⟩
  · intro hren st' h
    rcases h with h | h <;>
      simp only [step, hstore, hstack, hsel, hren, if_true, reduceIte,
                 empty_string_length, lt_self_iff_false, if_false,
                 List.append_nil] at h <;>
      repeat' split at h
    all_goals first
      | (injection h with h; subst h; rfl)
      | simp_all
  · intro hand st' h
    rcases h with h | h <;>
      simp only [step, hstore, hstack, hsel, hand, if_true, reduceIte] at h
    · injection h with h; subst h; rfl
    · exact absurd h (by simp)
  · intro hand hsome
    simp only [step, hstore, hstack, hsel, hand, hsome, if_true, if_false,
               Bool.false_eq_true, reduceIte]
    exact ⟨_, rfl⟩

/-- Witness for the amended C6: a selected page rendered empty with
`and_after` set flips the continue flag and emits nothing. -/
theorem claim_C6_witness :
    LoopState.keep_going
        { element_stack := ["mediawiki", "page", "revision"], page_count := 1,
          text := "w", store_text := false, current_title := none,
          keep_going := true, output := [], selections := 1 } = true :=
  (claim_C6_amended opts_C6 render_empty plain0
      { element_stack := ["mediawiki", "page", "revision", "text"], page_count := 1,
        text := "w", store_text := true, current_title := none, keep_going := false,
        output := [], selections := 0 }
      rfl rfl (by decide)).2.1 rfl _ (Or.inl (by decide))

/-- C9 (counterexample): the stream contains a CDATA event, but the run does
not abort — a preceding single-match termination leaves the loop before the
CDATA event is ever processed. -/
theorem claim_C9_counterexample :
    run opts_C9 render_empty plain0 initState events_C9 =
      .stopped { element_stack := ["mediawiki", "page", "revision", "text"],
                 page_count := 1, text := "w", store_text := false,
                 current_title := some "Bar", keep_going := false, output := [],
                 selections := 1 } [.cdata "x"] ∧
    (XmlEvent.cdata "x") ∈ events_C9 := by
  decide

/-- C9 (amended): processing a CDATA event aborts the run as a fatal
condition, and consequently a run that consumes its whole stream never
processed any CDATA event; a run may however stop early (single-match
termination) before a later CDATA event is reached. -/
theorem claim_C9_amended (opts : Opts) (render : String → String → String)
    (plain : String → String) :
    (∀ (st : LoopState) (s : String), step opts render plain st (.cdata s) = .fatal) ∧
    (∀ (events : List XmlEvent) (st st' : LoopState),
       run opts render plain st events = .finished st' →
       ∀ e ∈ events, isCData e = false) := by
  refine ⟨fun st s => rfl, ?_⟩
  intro events
  induction events with
  | nil =>
    intro st st' h e he
    exact absurd he (by simp)
  | cons ev rest ih =>
    intro st st' h e he
    simp only [run] at h
    rcases hs : step opts render plain st ev with s | s | _ <;> simp only [hs] at h
    · rcases List.mem_cons.mp he with rfl | hmem
      · cases e with
        | cdata s2 => rw [step_cdata_fatal] at hs; exact absurd hs (by simp)
        | startElement n => rfl
        | endElement => rfl
        | characters c => rfl
        | other => rfl
      · exact ih s st' h e hmem
    · exact absurd h (by simp)
    · exact absurd h (by simp)

/-- Witness for the amended C9: a concrete CDATA step aborts, and a concrete
completed run contains no CDATA. -/
theorem claim_C9_witness :
    step ⟨none, false, false, false⟩ render_empty plain0 initState (.cdata "x") =
      .fatal ∧
    isCData XmlEvent.other = false :=
  ⟨(claim_C9_amended ⟨none, false, false, false⟩ render_empty plain0).1 initState "x",
   (claim_C9_amended ⟨none, false, false, false⟩ render_empty plain0).2 [XmlEvent.other]
     initState initState (by decide) XmlEvent.other (by decide)⟩

end Wikicrunch

namespace Wikicrunch

/-! ### Whitespace-normalization lemmas (claim C7) -/

/-- Every character emitted by the collapsing pass is either a non-whitespace
input character or the replacement space. -/
theorem collapse_ws_spaced : ∀ (b : Bool) (l : List Char), ws_spaced (collapse_ws b l) := by
  intro b l
  induction l generalizing b with
  | nil => intro c hc hw; simp [collapse_ws] at hc
  | cons c rest ih =>
    intro x hx hw
    cases hWs : isWs c
    · simp only [collapse_ws, hWs] at hx
      simp only [Bool.false_eq_true, if_false] at hx
      rcases List.mem_cons.mp hx with rfl | hx'
      · exact absurd hw (by simp [hWs])
      · exact ih false x hx' hw
    · cases b with
      | true =>
        simp only [collapse_ws, hWs, if_true] at hx
        exact ih true x hx hw
      | false =>
        simp only [collapse_ws, hWs, if_true, Bool.false_eq_true, if_false] at hx
        rcases List.mem_cons.mp hx with rfl | hx'
        · rfl
        · exact ih true x hx' hw

/-- After a whitespace run has emitted its space, the next emitted character is
not whitespace. -/
theorem collapse_ws_head : ∀ l : List Char, head_not_ws (collapse_ws true l) := by
  intro l
  induction l with
  | nil => intro c hc; simp [collapse_ws] at hc
  | cons c rest ih =>
    intro x hx
    cases hWs : isWs c
    · simp only [collapse_ws, hWs, Bool.false_eq_true, if_false, List.head?_cons,
                 Option.mem_def, Option.some.injEq] at hx
      subst hx; exact hWs
    · simp only [collapse_ws, hWs, if_true] at hx
      exact ih x hx

/-- The collapsing pass never emits two adjacent whitespace characters. -/
theorem collapse_ws_no_adjacent : ∀ (b : Bool) (l : List Char),
    no_adjacent_ws (collapse_ws b l) := by
  intro b l
  induction l generalizing b with
  | nil => simp [collapse_ws, no_adjacent_ws]
  | cons c rest ih =>
    cases hWs : isWs c
    · show no_adjacent_ws (collapse_ws b (c :: rest))
      simp only [collapse_ws, hWs, Bool.false_eq_true, if_false]
      rw [no_adjacent_ws, List.chain'_cons']
      exact ⟨fun y _ => Or.inl hWs, ih false⟩
    · cases b with
      | true =>
        simp only [collapse_ws, hWs, if_true]
        exact ih true
      | false =>
        simp only [collapse_ws, hWs, if_true, Bool.false_eq_true, if_false]
        rw [no_adjacent_ws, List.chain'_cons']
        exact ⟨fun y hy => Or.inr (collapse_ws_head rest y hy), ih true⟩

/-- A list with only single spaces as whitespace is a fixed point of the
collapsing pass. -/
theorem collapse_ws_fixpoint : ∀ l : List Char, ws_spaced l → no_adjacent_ws l →
    (collapse_ws false l = l ∧ (head_not_ws l → collapse_ws true l = l)) := by
  intro l
  induction l with
  | nil => intro _ _; exact ⟨rfl, fun _ => rfl⟩
  | cons c rest ih =>
    intro hsp hadj
    have hsp' : ws_spaced rest := fun x hx hw => hsp x (List.mem_cons_of_mem c hx) hw
    have hadj' : no_adjacent_ws rest := (List.chain'_cons'.mp hadj).2
    have hrel : ∀ y ∈ rest.head?, isWs c = false ∨ isWs y = false :=
      (List.chain'_cons'.mp hadj).1
    rcases ih hsp' hadj' with ⟨ihf, iht⟩
    cases hWs : isWs c
    · constructor
      · simp [collapse_ws, hWs, ihf]
      · intro _; simp [collapse_ws, hWs, ihf]
    · have hc : c = ' ' := hsp c (List.mem_cons_self c rest) hWs
      have hhead : head_not_ws rest := by
        intro y hy
        rcases hrel y hy with h | h
        · rw [hWs] at h; exact absurd h (by simp)
        · exact h
      constructor
      · have hstep : collapse_ws false (c :: rest) = ' ' :: collapse_ws true rest := by
          simp [collapse_ws, hWs]
        rw [hstep, iht hhead, hc]
      · intro hh
        have := hh c (by simp)
        rw [hWs] at this
        exact absurd this (by simp)

/-- The head of `dropWhile p l` does not satisfy `p`. -/
theorem dropWhile_head_not (p : Char → Bool) :
    ∀ l : List Char, ∀ c ∈ (l.dropWhile p).head?, p c = false := by
  intro l
  induction l with
  | nil => intro c hc; simp at hc
  | cons x rest ih =>
    intro c hc
    cases hp : p x
    · rw [List.dropWhile_cons] at hc
      simp only [hp, Bool.false_eq_true, if_false, List.head?_cons, Option.mem_def,
                 Option.some.injEq] at hc
      subst hc; exact hp
    · rw [List.dropWhile_cons] at hc
      simp only [hp, if_true] at hc
      exact ih c hc

/-- A prefix inherits "head is not whitespace" from the larger list. -/
theorem prefix_head_not {l₁ l₂ : List Char} (hpre : l₁ <+: l₂)
    (h : head_not_ws l₂) : head_not_ws l₁ := by
  intro c hc
  rcases hpre with ⟨t, rfl⟩
  cases l₁ with
  | nil => simp at hc
  | cons x r =>
    have hx : x = c := by simpa using hc
    subst hx
    exact h _ (by simp)

/-- The trimmed list does not start with whitespace. -/
theorem trim_chars_head (l : List Char) : head_not_ws (trim_chars l) := by
  have hs : ((l.dropWhile fun c => isWs c).reverse.dropWhile fun c => isWs c) <:+
      (l.dropWhile fun c => isWs c).reverse := List.dropWhile_suffix _
  have hpre := List.reverse_prefix.mpr hs
  rw [List.reverse_reverse] at hpre
  exact prefix_head_not hpre (dropWhile_head_not _ l)

/-- The trimmed list does not end with whitespace. -/
theorem trim_chars_reverse_head (l : List Char) : head_not_ws (trim_chars l).reverse := by
  rw [trim_chars, List.reverse_reverse]
  exact dropWhile_head_not _ _

/-- Trimming only removes characters. -/
theorem ws_spaced_trim {l : List Char} (h : ws_spaced l) : ws_spaced (trim_chars l) := by
  intro c hc hw
  apply h c _ hw
  have h1 : c ∈ ((l.dropWhile fun c => isWs c).reverse.dropWhile fun c => isWs c) := by
    simpa [trim_chars] using hc
  have h2 : c ∈ (l.dropWhile fun c => isWs c).reverse :=
    ((List.dropWhile_suffix _).sublist).mem h1
  have h3 : c ∈ l.dropWhile fun c => isWs c := by simpa using h2
  exact ((List.dropWhile_suffix _).sublist).mem h3

/-- Reversal preserves the no-adjacent-whitespace property. -/
theorem no_adjacent_reverse {l : List Char} (h : no_adjacent_ws l) :
    no_adjacent_ws l.reverse := by
  rw [no_adjacent_ws, List.chain'_reverse]
  exact h.imp (fun a b hab => hab.symm)

/-- A suffix inherits the no-adjacent-whitespace property. -/
theorem no_adjacent_suffix {l₁ l₂ : List Char} (hs : l₁ <:+ l₂)
    (h : no_adjacent_ws l₂) : no_adjacent_ws l₁ := h.suffix hs

/-- Trimming preserves the no-adjacent-whitespace property. -/
theorem no_adjacent_trim {l : List Char} (h : no_adjacent_ws l) :
    no_adjacent_ws (trim_chars l) :=
  no_adjacent_reverse
    (no_adjacent_suffix (List.dropWhile_suffix _)
      (no_adjacent_reverse (no_adjacent_suffix (List.dropWhile_suffix _) h)))

/-- A list whose head is not whitespace is unchanged by `dropWhile`. -/
theorem dropWhile_eq_self_of_head {l : List Char} (h : head_not_ws l) :
    (l.dropWhile fun c => isWs c) = l := by
  cases l with
  | nil => rfl
  | cons c r =>
    rw [List.dropWhile_cons]
    simp [h c (by simp)]

/-- A list with no leading and no trailing whitespace is a fixed point of
trimming. -/
theorem trim_chars_eq {y : List Char} (h1 : head_not_ws y)
    (h2 : head_not_ws y.reverse) : trim_chars y = y := by
  rw [trim_chars, dropWhile_eq_self_of_head h1, dropWhile_eq_self_of_head h2,
      List.reverse_reverse]

/-- C7: the whitespace normalization of the markup filter (collapse every
whitespace run to a single space, then trim both ends) is idempotent: applying
it twice yields the same result as applying it once. -/
theorem claim_C7 (s : String) :
    whitespace_normalize (whitespace_normalize s) = whitespace_normalize s := by
  show (⟨trim_chars (collapse_ws false (trim_chars (collapse_ws false s.data)))⟩ : String) =
    ⟨trim_chars (collapse_ws false s.data)⟩
  have hsp : ws_spaced (trim_chars (collapse_ws false s.data)) :=
    ws_spaced_trim (collapse_ws_spaced false s.data)
  have hadj : no_adjacent_ws (trim_chars (collapse_ws false s.data)) :=
    no_adjacent_trim (collapse_ws_no_adjacent false s.data)
  rw [(collapse_ws_fixpoint _ hsp hadj).1,
      trim_chars_eq (trim_chars_head _) (trim_chars_reverse_head _)]

end Wikicrunch
